import Mathlib

/-!
Verification development for the DigitalLockin repository
(`digitallockin.py` and `main.py`).

The definitions below are a shallow embedding of the Python source into
Lean over exact real arithmetic: numpy float arrays become functions
`ℕ → ℝ` (channel- and sample-indexed), in-place array mutation becomes
functional record update, and Python exceptions become `Except` values.
`numpy.mod` is embedded as `rmod` (`a - b * ⌊a / b⌋`, which is numpy's
sign-follows-divisor convention).  Hardware sample acquisition
(`self._hw.retrieve_samples`) is an external input, so the retrieved
batch (a `channels × samples` array together with its sample count) is
passed to the embedded functions as an explicit argument.
-/

namespace DigitalLockin

/-- numpy.mod semantics on reals: `numpy.mod(a, b) = a - b * floor(a / b)`
(result has the sign of the divisor). -/
noncomputable def rmod (a b : ℝ) : ℝ := a - b * ⌊a / b⌋

/-- numpy.arctan2 y x, embedded as the argument of the complex number
`x + i y`, which lands in `(-π, π]` like numpy's arctan2. -/
noncomputable def arctan2 (y x : ℝ) : ℝ := Complex.arg ⟨x, y⟩

/-- Accumulator state of one `DigitalLockin` object: the per-channel
stage-1 accumulators `_x1, _y1`, stage-2 accumulators `_x2, _y2`
(index 0 is the measured reference channel) and the running oscillator
phase `_phi`. -/
@[ext]
structure LockinState where
  x1 : ℕ → ℝ
  y1 : ℕ → ℝ
  x2 : ℕ → ℝ
  y2 : ℕ → ℝ
  phi : ℝ

/-- Embeds `mlnalpha = - numpy.log(1 - 1. / self._flt_tau / self._fs)`
(digitallockin.py line 399): minus the log of the per-sample retention
factor of one alpha filter. -/
noncomputable def mlnalpha (tau fs : ℝ) : ℝ := -Real.log (1 - 1 / (tau * fs))

/-- Embeds `mlnialpha = numpy.log(self._flt_tau * self._fs)`
(digitallockin.py line 400): minus the log of the per-sample gain. -/
noncomputable def mlnialpha (tau fs : ℝ) : ℝ := Real.log (tau * fs)

/-- Element `k` of `flt1weight` (digitallockin.py line 416):
`numpy.exp(numpy.arange(-(samples-1)*mlnalpha - mlnialpha, mlnalpha/2 - mlnialpha, mlnalpha))`,
whose `k`-th entry is `exp(-((S-1)-k)*mlnalpha - mlnialpha)`. -/
noncomputable def flt1weight (tau fs : ℝ) (S k : ℕ) : ℝ :=
  Real.exp (-((S : ℝ) - 1 - (k : ℝ)) * mlnalpha tau fs - mlnialpha tau fs)

/-- Element `k` of one row of `flt2weightr` (digitallockin.py line 418):
`numpy.exp(-mlnialpha) * numpy.arange(samples, 0.5, -1)`, whose `k`-th
entry is `exp(-mlnialpha) * (S - k)`. -/
noncomputable def flt2weightr (tau fs : ℝ) (S k : ℕ) : ℝ :=
  Real.exp (-mlnialpha tau fs) * ((S : ℝ) - (k : ℝ))

/-- Embeds `initvalmulfac1 = numpy.exp(- mlnalpha * samples)` (line 420). -/
noncomputable def initvalmulfac1 (tau fs : ℝ) (S : ℕ) : ℝ :=
  Real.exp (-mlnalpha tau fs * (S : ℝ))

/-- Embeds `initvalmulfac2 = samples * numpy.exp(- mlnalpha * samples - mlnialpha)` (line 422). -/
noncomputable def initvalmulfac2 (tau fs : ℝ) (S : ℕ) : ℝ :=
  (S : ℝ) * Real.exp (-mlnalpha tau fs * (S : ℝ) - mlnialpha tau fs)

/-- The state transformation of `DigitalLockin.continuous_retrieve_and_filter`
(digitallockin.py lines 397-432) on the accumulators and phase, for a
retrieved batch `raw` (channel-major: `raw c k` is sample `k` of channel
`c`) of `S` samples.  The detection phases are
`phi_k = self._phi + k * 2π f / fs` (line 409, `numpy.arange`),
`f1sin[c][k] = raw[c][k] * (sin(phi_k) * flt1weight[k])` (line 425) and
the accumulator updates are lines 429-432, with `_x2`/`_y2` computed
from the pre-update `_x1`/`_y1`.  The new phase is
`numpy.mod(self._phi + 2π f / fs * samples, 2π)` (line 412).
Caveat: for `f = 0` the source's `numpy.arange(phi, phi, 0)` at line
409 has a zero step and raises instead of producing the batch phases,
so this definition describes the source's behaviour for a nonzero
signal frequency `f`. -/
noncomputable def crf (tau fs f : ℝ) (st : LockinState) (raw : ℕ → ℕ → ℝ)
    (S : ℕ) : LockinState where
  x1 := fun c => initvalmulfac1 tau fs S * st.x1 c +
    ∑ k ∈ Finset.range S,
      raw c k * (Real.sin (st.phi + (k : ℝ) * (2 * Real.pi * f / fs)) * flt1weight tau fs S k)
  y1 := fun c => initvalmulfac1 tau fs S * st.y1 c +
    ∑ k ∈ Finset.range S,
      raw c k * (Real.cos (st.phi + (k : ℝ) * (2 * Real.pi * f / fs)) * flt1weight tau fs S k)
  x2 := fun c => initvalmulfac1 tau fs S * st.x2 c + initvalmulfac2 tau fs S * st.x1 c +
    ∑ k ∈ Finset.range S,
      raw c k * (Real.sin (st.phi + (k : ℝ) * (2 * Real.pi * f / fs)) * flt1weight tau fs S k) *
        flt2weightr tau fs S k
  y2 := fun c => initvalmulfac1 tau fs S * st.y2 c + initvalmulfac2 tau fs S * st.y1 c +
    ∑ k ∈ Finset.range S,
      raw c k * (Real.cos (st.phi + (k : ℝ) * (2 * Real.pi * f / fs)) * flt1weight tau fs S k) *
        flt2weightr tau fs S k
  phi := rmod (st.phi + 2 * Real.pi * f / fs * (S : ℝ)) (2 * Real.pi)

/-- One `DigitalLockin` instance: the `_simulated` and `_is_measuring`
flags, the configuration `_flt_tau`, `_fs`, `_f`, the generator
amplitude, and the accumulator state. -/
structure Instrument where
  simulated : Bool
  measuring : Bool
  tau : ℝ
  fs : ℝ
  f : ℝ
  gen_amplitude : ℝ
  st : LockinState

/-- Exceptions raised by `DigitalLockin` methods. -/
inductive LockinErr where
  | notMeasuring
  | simulationUnsupported
  | alreadyMeasuring
deriving DecidableEq

/-- Embeds `DigitalLockin.continuous_retrieve_and_filter` (lines 378-436): for a
measuring non-simulated instrument it applies `crf` to the retrieved
batch; a measuring simulated instrument raises
`RuntimeError('Continuous running mode not supported for simulation')`;
a non-measuring instrument raises a `RuntimeWarning`. -/
noncomputable def continuous_retrieve_and_filter (inst : Instrument)
    (raw : ℕ → ℕ → ℝ) (S : ℕ) : Except LockinErr Instrument :=
  if inst.measuring && !inst.simulated then
    .ok { inst with st := crf inst.tau inst.fs inst.f inst.st raw S }
  else if inst.measuring then
    .error .simulationUnsupported
  else
    .error .notMeasuring

/-- Embeds `DigitalLockin.free_data` (lines 197-208): zeroes `_x1 ... _y2` and
`_phi` (raw and intermediate data are not part of this model). -/
def free_data (inst : Instrument) : Instrument :=
  { inst with st := ⟨fun _ => 0, fun _ => 0, fun _ => 0, fun _ => 0, 0⟩ }

/-- Embeds `DigitalLockin.start_measurement` (lines 308-320): raises if already
measuring, otherwise sets `_is_measuring` (hardware start-up has no
effect on the modelled state). -/
def start_measurement (inst : Instrument) : Except LockinErr Instrument :=
  if inst.measuring then .error .alreadyMeasuring
  else .ok { inst with measuring := true }

/-- Embeds `DigitalLockin.set_flt_time_constant` (digitallockin.py line 456). -/
def set_flt_time_constant (inst : Instrument) (tau : ℝ) : Instrument :=
  { inst with tau := tau }

/-- Embeds `DigitalLockin.set_flt_alpha` (digitallockin.py line 453):
`self._flt_tau = 1. / self._fs / (1 - alpha)`. -/
noncomputable def set_flt_alpha (inst : Instrument) (alpha : ℝ) : Instrument :=
  { inst with tau := 1 / inst.fs / (1 - alpha) }

/-- Embeds `DigitalLockin.get_gen_amplitude` (digitallockin.py lines 272-277):
1 in simulation mode, the hardware amplitude otherwise. -/
def get_gen_amplitude (inst : Instrument) : ℝ :=
  if inst.simulated then 1 else inst.gen_amplitude

/-- Embeds `DigitalLockin.continuous_get_r_phi` (digitallockin.py lines 438-451)
for an instrument whose accumulator vectors have `C = channels + 1`
entries.  The concatenated amplitude array
`r = sqrt(append(x1, x2)**2 + append(y1, y2)**2)` has length `2C`; the
code then performs, in place,
`r[1:C] /= r[0]`, `r[C+1:] /= r[C]` and `r[0::C] *= 2` (for an array of
length `2C` the slice `0::C` is exactly the two indices `0` and `C`).
The phase array `phi = arctan2(append(y1, y2), append(x1, x2))` is
reduced by `phi = mod(phi[1:] - phi[0] + π, 2π) - π` — so the result is
index-shifted by one — and finally `phi[C:] -= phi[C-1]`.  The two
returned functions are meaningful on indices `< 2C` (resp. `< 2C - 1`),
mirroring the numpy array lengths. -/
noncomputable def continuous_get_r_phi (st : LockinState) (C : ℕ) :
    (ℕ → ℝ) × (ℕ → ℝ) :=
  let rraw : ℕ → ℝ := fun i =>
    if i < C then Real.sqrt (st.x1 i ^ 2 + st.y1 i ^ 2)
    else Real.sqrt (st.x2 (i - C) ^ 2 + st.y2 (i - C) ^ 2)
  let r1 : ℕ → ℝ := fun i => if 1 ≤ i ∧ i < C then rraw i / rraw 0 else rraw i
  let r2 : ℕ → ℝ := fun i => if C + 1 ≤ i then r1 i / r1 C else r1 i
  let r3 : ℕ → ℝ := fun i => if i = 0 ∨ i = C then 2 * r2 i else r2 i
  let phiraw : ℕ → ℝ := fun i =>
    if i < C then arctan2 (st.y1 i) (st.x1 i)
    else arctan2 (st.y2 (i - C)) (st.x2 (i - C))
  let phin : ℕ → ℝ := fun i =>
    rmod (phiraw (i + 1) - phiraw 0 + Real.pi) (2 * Real.pi) - Real.pi
  let phif : ℕ → ℝ := fun i => if C ≤ i then phin i - phin (C - 1) else phin i
  (r3, phif)

/-!  ### main.py: scheduler and command dispatcher  -/

/-- Embeds `R_PHI_BUFFER_LEN_MAX` (main.py line 118). -/
def R_PHI_BUFFER_LEN_MAX : ℕ := 1000

/-- One result log of `main.py`: a fixed-capacity buffer (conceptually of
length `R_PHI_BUFFER_LEN_MAX`) together with its write cursor
(`amplitude_num[i]` or `phase_num[i]`). -/
structure ResultLog where
  buf : ℕ → ℝ
  num : ℕ

/-- The index a result write lands at: `main.py` lines 556-561 first
reset the cursor to 0 when it has reached `R_PHI_BUFFER_LEN_MAX`
(discarding the whole log). -/
def writeIndex (l : ResultLog) : ℕ :=
  if l.num = R_PHI_BUFFER_LEN_MAX then 0 else l.num

/-- One result write of `measure_loop` (main.py lines 556-565): discard
the log when the cursor has reached capacity, write the new value at the
cursor, then increment the cursor. -/
def resultWrite (l : ResultLog) (v : ℝ) : ResultLog :=
  { buf := Function.update l.buf (writeIndex l) v, num := writeIndex l + 1 }

/-- Repeated result writes (successive integration periods completing in
`measure_loop`). -/
def writeAll (l : ResultLog) (vs : List ℝ) : ResultLog :=
  vs.foldl resultWrite l

/-- A batch made available by the hardware for one instrument during one
scheduler tick (the samples that `retrieve_samples(-1, .1, True)`
returns, with their count). -/
structure RawBatch where
  raw : ℕ → ℕ → ℝ
  S : ℕ

/-- Embeds `measure_loop_continuous` (main.py lines 568-574): a plain Python
`for` loop over the instruments that calls
`continuous_retrieve_and_filter` on each measuring one, with no
exception handling — a raised exception aborts the remaining iterations
and propagates to the caller (the main polling loop at lines 601-613,
whose `try` block covers only the command reading, so the exception
escapes the loop).  Each instrument is paired with the batch its own
hardware offers this tick. -/
noncomputable def measure_loop_continuous :
    List (Instrument × RawBatch) → Except LockinErr (List Instrument)
  | [] => .ok []
  | (inst, b) :: rest =>
    if inst.measuring then
      match continuous_retrieve_and_filter inst b.raw b.S with
      | .error e => .error e
      | .ok inst' => (measure_loop_continuous rest).map (inst' :: ·)
    else
      (measure_loop_continuous rest).map (inst :: ·)

/-- Dispatcher-level failures (reduced to the single `ERROR` wire token
by `command_loop`). -/
inductive DispatchErr where
  | noLockinSelected
  | noPhaseInfo
  | invalidSelection
  | resourcePoolExhausted
deriving DecidableEq

/-- The per-instrument bookkeeping of `main.py` (the parallel arrays
indexed by `idx - 1`): the `DigitalLockin` object, the two result logs
with their cursors, the reference-amplitude log, the channel count, the
phase offset, timing state and the batch counter of the current
integration cycle. -/
structure Slot where
  inst : Instrument
  amplitude_num : ℕ
  phase_num : ℕ
  ref_amplitude_buffer : ℕ → ℝ
  amplitude_buffer : ℕ → ℕ → ℝ
  phase_buffer : ℕ → ℕ → ℝ
  num_meas_ch : ℕ
  phase_offset : ℝ
  integrationtime : ℝ
  measperint : ℕ
  acquiretime : ℝ
  meas_in_cur_int : ℕ
  t_lastmeas : ℝ
  t_lastintegration : ℝ

/-- Embeds `_get_lockin` (main.py lines 139-148): returns the lock-in with
index `idx` when `0 < idx <= len(dl)`, raises
`RuntimeError('No lock-in selected')` otherwise. -/
def _get_lockin (idx : ℤ) (slots : List Slot) : Except DispatchErr Slot :=
  if 0 < idx ∧ idx ≤ (slots.length : ℤ) then
    match slots[(idx - 1).toNat]? with
    | some sl => .ok sl
    | none => .error .noLockinSelected
  else .error .noLockinSelected

/-- Embeds `start_lockin` (main.py lines 443-449): `start_measurement` on the
selected lock-in, then record the start time and reset the batch counter
of the current integration cycle. -/
def start_lockin (sl : Slot) (now : ℝ) : Except LockinErr Slot :=
  match start_measurement sl.inst with
  | .error e => .error e
  | .ok i =>
    .ok { sl with inst := i, t_lastmeas := now, meas_in_cur_int := 0,
                  t_lastintegration := now }

/-- The variables accepted by `get` (main.py lines 256-378). -/
inductive GetVar where
  | rphibuffer | rphi | r | phi | xy | x | y | f | fs | a | t | phaseoffset
deriving DecidableEq

/-- The data content of a `get` reply (string formatting by
`_fmt_array_for_com` is not modelled; a reply carries either a list of
rows of numbers or a single number). -/
inductive GetPayload where
  | rows : List (List ℝ) → GetPayload
  | value : ℝ → GetPayload

/-- The last written row of the amplitude buffer restricted to the
measurement channels: `amplitude_buffer[idx-1][amplitude_num[idx-1]-1,
:dl[idx-1].get_num_meas_ch()]`. -/
def lastAmpRow (sl : Slot) : List ℝ :=
  (List.range sl.num_meas_ch).map fun c =>
    sl.amplitude_buffer (sl.amplitude_num - 1) c

/-- The last written row of the phase buffer restricted to the
measurement channels. -/
def lastPhiRow (sl : Slot) : List ℝ :=
  (List.range sl.num_meas_ch).map fun c =>
    sl.phase_buffer (sl.phase_num - 1) c

/-- The multi-row `RPHIBUFFER` payload (main.py lines 288-293): with
`dnum = amplitude_num - phase_num`, the amplitude rows start at
`max(0, dnum)` and the phase rows at `max(0, -dnum)`, so the row count
is `min(amplitude_num, phase_num)`; each output row is the reference
amplitude followed by the channel amplitudes followed by the channel
phases (`numpy.append(r, phi, 1)`). -/
def rphibufferRows (sl : Slot) : List (List ℝ) :=
  let dnum : ℤ := (sl.amplitude_num : ℤ) - (sl.phase_num : ℤ)
  (List.range (min sl.amplitude_num sl.phase_num)).map fun j =>
    (sl.ref_amplitude_buffer (dnum.toNat + j) ::
      (List.range sl.num_meas_ch).map fun c =>
        sl.amplitude_buffer (dnum.toNat + j) c) ++
    (List.range sl.num_meas_ch).map fun c =>
      sl.phase_buffer ((-dnum).toNat + j) c

/-- The single-row `RPHI` payload (main.py line 298):
`numpy.append(*li.continuous_get_r_phi())` — the `2C` amplitudes
followed by the `2C - 1` normalized phases, computed directly from the
continuous accumulators (no buffer involved). -/
noncomputable def rphiRow (sl : Slot) : List ℝ :=
  let C := sl.num_meas_ch + 1
  let rp := continuous_get_r_phi sl.inst.st C
  (List.range (2 * C)).map rp.1 ++ (List.range (2 * C - 1)).map rp.2

/-- Embeds `get` (main.py lines 256-378).  The returned pair is the reply
payload (`none` when the code returns Python `None`, meaning "not yet
available, retry on a later iteration") together with the possibly
updated slot (buffer reads reset the corresponding cursors).  A raised
exception becomes an `Except.error`. -/
noncomputable def get (idx : ℤ) (slots : List Slot) (v : GetVar) :
    Except DispatchErr (Option GetPayload × Slot) :=
  match _get_lockin idx slots with
  | .error e => .error e
  | .ok sl =>
    match v with
    | .rphibuffer =>
      if sl.amplitude_num = 0 ∨ sl.phase_num = 0 then .ok (none, sl)
      else .ok (some (.rows (rphibufferRows sl)),
                { sl with amplitude_num := 0, phase_num := 0 })
    | .rphi => .ok (some (.rows [rphiRow sl]), sl)
    | .r =>
      if sl.amplitude_num = 0 then .ok (none, sl)
      else .ok (some (.rows [lastAmpRow sl]), { sl with amplitude_num := 0 })
    | .phi =>
      if sl.phase_num = 0 then .ok (none, sl)
      else .ok (some (.rows [lastPhiRow sl]), { sl with phase_num := 0 })
    | .xy =>
      if sl.amplitude_num = 0 ∨ sl.phase_num = 0 then .ok (none, sl)
      else .ok (some (.rows [((lastAmpRow sl).zip (lastPhiRow sl)).map
                  (fun p => p.1 * Real.cos p.2) ++
                ((lastAmpRow sl).zip (lastPhiRow sl)).map
                  (fun p => p.1 * Real.sin p.2)]),
                { sl with amplitude_num := 0, phase_num := 0 })
    | .x =>
      if sl.amplitude_num = 0 ∨ sl.phase_num = 0 then .ok (none, sl)
      else .ok (some (.rows [((lastAmpRow sl).zip (lastPhiRow sl)).map
                  (fun p => p.1 * Real.cos p.2)]),
                { sl with amplitude_num := 0, phase_num := 0 })
    | .y =>
      if sl.amplitude_num = 0 ∨ sl.phase_num = 0 then .ok (none, sl)
      else .ok (some (.rows [((lastAmpRow sl).zip (lastPhiRow sl)).map
                  (fun p => p.1 * Real.sin p.2)]),
                { sl with amplitude_num := 0, phase_num := 0 })
    | .f => .ok (some (.value sl.inst.f), sl)
    | .fs => .ok (some (.value sl.inst.fs), sl)
    | .a => .ok (some (.value (get_gen_amplitude sl.inst)), sl)
    | .t => .ok (some (.value sl.integrationtime), sl)
    | .phaseoffset => .ok (some (.value sl.phase_offset), sl)

/-- What `command_loop` puts on the wire for one command. -/
inductive Reply where
  | okPayload : GetPayload → Reply
  | ok
  | error
  | idn

/-- The `GET` branch of `command_loop` (main.py lines 488-493): a raised
exception is caught and answered with the `ERROR` token; a `None` result
sends nothing (and keeps the command pending for the next iteration); a
payload is sent with `OK`. -/
noncomputable def commandGet (idx : ℤ) (slots : List Slot) (v : GetVar) :
    Option Reply :=
  match get idx slots v with
  | .error _ => some .error
  | .ok (none, _) => none
  | .ok (some p, _) => some (.okPayload p)

/-- The numeric variables accepted by `set` (main.py lines 380-423).
`MEASCH` (a channel-name list, reconfiguring hardware channels) is left
out of the model; no claim concerns it. -/
inductive SetVar where
  | f | fs | a | t | phaseoffset | alpha
deriving DecidableEq

/-- Embeds `MEASUREMENT_TIME_MAX` (main.py line 117). -/
noncomputable def MEASUREMENT_TIME_MAX : ℝ := 1 / 2

/-- Embeds `_inttime_to_meastime` (main.py lines 225-228):
`i = ceil(inttime / max_meastime)`, returning `(i, inttime / i)`. -/
noncomputable def _inttime_to_meastime (inttime maxMeastime : ℝ) : ℕ × ℝ :=
  let i : ℕ := ⌈inttime / maxMeastime⌉.toNat
  (i, inttime / (i : ℝ))

/-- Embeds `set` (main.py lines 380-423), modelled on the simulated code path
where the requested value is stored directly (on hardware the driver may
clamp it; that read-back is outside the model).  Returns the updated
slot; a bad selection raises via `_get_lockin`. -/
noncomputable def setCmd (idx : ℤ) (slots : List Slot) (v : SetVar)
    (val : ℝ) : Except DispatchErr Slot :=
  match _get_lockin idx slots with
  | .error e => .error e
  | .ok sl =>
    match v with
    | .f => .ok { sl with inst := { sl.inst with f := val } }
    | .fs => .ok { sl with inst := { sl.inst with fs := val } }
    | .a => .ok { sl with inst := { sl.inst with gen_amplitude := val } }
    | .t =>
      let im := _inttime_to_meastime val MEASUREMENT_TIME_MAX
      .ok { sl with inst := set_flt_time_constant sl.inst val,
                    integrationtime := val,
                    measperint := im.1, acquiretime := im.2 }
    | .phaseoffset => .ok { sl with phase_offset := val }
    | .alpha => .ok { sl with inst := set_flt_alpha sl.inst val }

/-- Embeds `select_lockin` (main.py lines 234-254) acting on the selection
index and the instrument count: any `s <= len(dl)` is accepted and
stored as the selection; `s = len(dl) + 1` tries to allocate a new
instrument (which fails when a device pool is exhausted, modelled by
`canCreate`); anything larger raises.  Returns the new
`(dl_selected, len(dl))`. -/
def select_lockin (s : ℤ) (count : ℕ) (canCreate : Bool) :
    Except DispatchErr (ℤ × ℕ) :=
  if s ≤ (count : ℤ) then .ok (s, count)
  else if s = (count : ℤ) + 1 then
    if canCreate then .ok (s, count + 1) else .error .resourcePoolExhausted
  else .error .invalidSelection

/-- The `SELECT` branch of `command_loop` (main.py lines 486-487):
`OK` when `select_lockin` returns, `ERROR` when it raises. -/
def commandSelect (s : ℤ) (count : ℕ) (canCreate : Bool) : Reply :=
  match select_lockin s count canCreate with
  | .ok _ => .ok
  | .error _ => .error

/-- Embeds `phasenull` (main.py lines 425-441) for a positive selection `sel`:
requires a selected lock-in (`bool(dl_selected)`) and at least one
buffered phase row (`bool(phase_num[dl_selected-1])`), then adds the
last buffered (offset-corrected) phase of channel `ch` to the phase
offset.  (The channel-string parsing and Python's negative-index
wraparound for `sel < 0` are not modelled; the dispatcher only produces
`sel ≥ 0` here.) -/
def phasenull (sel : ℤ) (slots : List Slot) (ch : ℕ) :
    Except DispatchErr (List Slot) :=
  if sel ≠ 0 then
    match slots[(sel - 1).toNat]? with
    | some sl =>
      if sl.phase_num ≠ 0 then
        .ok (slots.set (sel - 1).toNat
          { sl with phase_offset :=
              sl.phase_offset + sl.phase_buffer (sl.phase_num - 1) ch })
      else .error .noPhaseInfo
    | none => .error .noLockinSelected
  else .error .noLockinSelected

/-- The phase value `measure_loop` would buffer for channel `c` (main.py
line 563: `phase_buffer[...] = phase_now - phase_offset[i]`) when the
underlying measured (uncorrected) phases are `m`: the reported phase is
the measured phase minus the slot's phase offset. -/
def reported (sl : Slot) (m : ℕ → ℝ) (c : ℕ) : ℝ := m c - sl.phase_offset

/-!  ### Concrete instances used by the checks below  -/

/-- All-zero accumulator state (the state right after `free_data`). -/
def zeroState : LockinState := ⟨fun _ => 0, fun _ => 0, fun _ => 0, fun _ => 0, 0⟩

/-- A measuring hardware (non-simulated) instrument with zeroed state. -/
def instW : Instrument := ⟨false, true, 1, 1, 1, 1, zeroState⟩

/-- Accumulator state with stage-1 in-phase accumulators equal to 1. -/
def st0 : LockinState := ⟨fun _ => 1, fun _ => 0, fun _ => 0, fun _ => 0, 0⟩

/-- A measuring hardware instrument with `tau = 1`, `fs = 2`, `f = 1`
(so `tau * fs = 2 > 1` and the signal frequency is nonzero) and state
`st0`. -/
def instC1 : Instrument := ⟨false, true, 1, 2, 1, 1, st0⟩

/-- Accumulator state whose raw amplitudes are all 1 (`x` components 1,
`y` components 0), used to trace `continuous_get_r_phi`. -/
def stC4 : LockinState := ⟨fun _ => 1, fun _ => 0, fun _ => 1, fun _ => 0, 0⟩

/-- Accumulator state with every accumulator and the phase equal to 1. -/
def stC7 : LockinState := ⟨fun _ => 1, fun _ => 1, fun _ => 1, fun _ => 1, 1⟩

/-- A non-measuring hardware instrument carrying left-over accumulators. -/
def instC7 : Instrument := ⟨false, false, 1, 1, 1, 1, stC7⟩

/-- A measuring *simulated* instrument (its
`continuous_retrieve_and_filter` raises). -/
def simInstC8 : Instrument := ⟨true, true, 1, 1, 1, 1, zeroState⟩

/-- A measuring hardware instrument. -/
def hwInstC8 : Instrument := ⟨false, true, 1, 1, 1, 1, zeroState⟩

/-- A one-sample all-zero batch. -/
def batch0 : RawBatch := ⟨fun _ _ => 0, 1⟩

/-- A slot with empty result buffers around a given instrument. -/
def baseSlot (inst : Instrument) : Slot :=
  ⟨inst, 0, 0, fun _ => 0, fun _ _ => 0, fun _ _ => 0, 1, 0, 0, 1, 0, 0, 0, 0⟩

/-- A freshly started slot: measuring instrument, no buffered results. -/
def freshSlot : Slot := baseSlot instW

/-- A slot with one buffered phase row whose channel-`c` entry is `c`. -/
def slotC9 : Slot :=
  { baseSlot instW with phase_num := 1, phase_buffer := fun _ c => (c : ℝ) }

/-!  ### Helper lemmas  -/

theorem rmod_def (a b : ℝ) : rmod a b = a - b * ⌊a / b⌋ := rfl

theorem rmod_nonneg (a : ℝ) {b : ℝ} (hb : 0 < b) : 0 ≤ rmod a b := by
  have h : rmod a b = b * Int.fract (a / b) := by
    rw [rmod_def, Int.fract]
    field_simp
  rw [h]
  exact mul_nonneg hb.le (Int.fract_nonneg _)

theorem rmod_lt (a : ℝ) {b : ℝ} (hb : 0 < b) : rmod a b < b := by
  have h : rmod a b = b * Int.fract (a / b) := by
    rw [rmod_def, Int.fract]
    field_simp
  rw [h]
  calc b * Int.fract (a / b) < b * 1 :=
        (mul_lt_mul_left hb).mpr (Int.fract_lt_one _)
    _ = b := mul_one b

/-- Reducing modulo `b` before adding more and reducing again is the
same as reducing once at the end. -/
theorem rmod_add_rmod (a c : ℝ) {b : ℝ} (hb : b ≠ 0) :
    rmod (rmod a b + c) b = rmod (a + c) b := by
  rw [rmod_def, rmod_def, rmod_def]
  have hdiv : (a - b * ⌊a / b⌋ + c) / b = (a + c) / b - ⌊a / b⌋ := by
    field_simp
    ring
  rw [hdiv, Int.floor_sub_int]
  push_cast
  ring

theorem sin_rmod_add (a c : ℝ) :
    Real.sin (rmod a (2 * Real.pi) + c) = Real.sin (a + c) := by
  have h : rmod a (2 * Real.pi) + c =
      (a + c) - (⌊a / (2 * Real.pi)⌋ : ℤ) * (2 * Real.pi) := by
    rw [rmod_def]; ring
  rw [h, Real.sin_sub_int_mul_two_pi]

theorem cos_rmod_add (a c : ℝ) :
    Real.cos (rmod a (2 * Real.pi) + c) = Real.cos (a + c) := by
  have h : rmod a (2 * Real.pi) + c =
      (a + c) - (⌊a / (2 * Real.pi)⌋ : ℤ) * (2 * Real.pi) := by
    rw [rmod_def]; ring
  rw [h, Real.cos_sub_int_mul_two_pi]

theorem exp_factor (x y z : ℝ) (h : x = y + z) :
    Real.exp x = Real.exp y * Real.exp z := by
  rw [h, Real.exp_add]

theorem ivf1_mul_ivf1 (tau fs : ℝ) (S1 S2 : ℕ) :
    initvalmulfac1 tau fs S2 * initvalmulfac1 tau fs S1 =
      initvalmulfac1 tau fs (S1 + S2) := by
  unfold initvalmulfac1
  rw [← Real.exp_add]
  congr 1
  push_cast
  ring

theorem ivf1_mul_flt1 (tau fs : ℝ) (S1 S2 k : ℕ) :
    initvalmulfac1 tau fs S2 * flt1weight tau fs S1 k =
      flt1weight tau fs (S1 + S2) k := by
  unfold initvalmulfac1 flt1weight
  rw [← Real.exp_add]
  congr 1
  push_cast
  ring

theorem flt1_shift (tau fs : ℝ) (S1 S2 j : ℕ) :
    flt1weight tau fs S2 j = flt1weight tau fs (S1 + S2) (S1 + j) := by
  unfold flt1weight
  congr 1
  push_cast
  ring

theorem flt2_shift (tau fs : ℝ) (S1 S2 j : ℕ) :
    flt2weightr tau fs S2 j = flt2weightr tau fs (S1 + S2) (S1 + j) := by
  unfold flt2weightr
  congr 1
  push_cast
  ring

theorem ivf2_add (tau fs : ℝ) (S1 S2 : ℕ) :
    initvalmulfac1 tau fs S2 * initvalmulfac2 tau fs S1 +
      initvalmulfac2 tau fs S2 * initvalmulfac1 tau fs S1 =
      initvalmulfac2 tau fs (S1 + S2) := by
  unfold initvalmulfac1 initvalmulfac2
  push_cast
  rw [exp_factor (-mlnalpha tau fs * (S1 : ℝ) - mlnialpha tau fs)
        (-mlnalpha tau fs * (S1 : ℝ)) (-mlnialpha tau fs) (by ring),
      exp_factor (-mlnalpha tau fs * (S2 : ℝ) - mlnialpha tau fs)
        (-mlnalpha tau fs * (S2 : ℝ)) (-mlnialpha tau fs) (by ring),
      exp_factor (-mlnalpha tau fs * ((S1 : ℝ) + (S2 : ℝ)) - mlnialpha tau fs)
        (-mlnalpha tau fs * (S1 : ℝ))
        (-mlnalpha tau fs * (S2 : ℝ) + -mlnialpha tau fs) (by ring),
      exp_factor (-mlnalpha tau fs * (S2 : ℝ) + -mlnialpha tau fs)
        (-mlnalpha tau fs * (S2 : ℝ)) (-mlnialpha tau fs) (by ring)]
  ring

theorem flt2_step (tau fs : ℝ) (S1 S2 k : ℕ) :
    initvalmulfac1 tau fs S2 * (flt1weight tau fs S1 k * flt2weightr tau fs S1 k) +
      initvalmulfac2 tau fs S2 * flt1weight tau fs S1 k =
      flt1weight tau fs (S1 + S2) k * flt2weightr tau fs (S1 + S2) k := by
  have hBC : flt1weight tau fs S1 k =
      Real.exp (-((S1 : ℝ) - 1 - (k : ℝ)) * mlnalpha tau fs) *
        Real.exp (-mlnialpha tau fs) := by
    unfold flt1weight
    rw [← Real.exp_add]
    congr 1
  have hBig : flt1weight tau fs (S1 + S2) k =
      Real.exp (-((S1 : ℝ) - 1 - (k : ℝ)) * mlnalpha tau fs) *
        Real.exp (-mlnalpha tau fs * (S2 : ℝ)) * Real.exp (-mlnialpha tau fs) := by
    unfold flt1weight
    rw [← Real.exp_add, ← Real.exp_add]
    congr 1
    push_cast
    ring
  have hAC : Real.exp (-mlnalpha tau fs * (S2 : ℝ) - mlnialpha tau fs) =
      Real.exp (-mlnalpha tau fs * (S2 : ℝ)) * Real.exp (-mlnialpha tau fs) := by
    rw [← Real.exp_add]
    congr 1
  unfold initvalmulfac1 initvalmulfac2 flt2weightr
  rw [hBC, hBig, hAC]
  push_cast
  ring

theorem stage1_add (g : ℝ → ℝ)
    (hg : ∀ a c : ℝ, g (rmod a (2 * Real.pi) + c) = g (a + c))
    (tau fs mf phi0 X : ℝ) (u : ℕ → ℝ) (S1 S2 : ℕ) :
    initvalmulfac1 tau fs S2 *
        (initvalmulfac1 tau fs S1 * X +
          ∑ k ∈ Finset.range S1,
            u k * (g (phi0 + (k : ℝ) * mf) * flt1weight tau fs S1 k)) +
      ∑ j ∈ Finset.range S2,
        u (S1 + j) *
          (g (rmod (phi0 + mf * (S1 : ℝ)) (2 * Real.pi) + (j : ℝ) * mf) *
            flt1weight tau fs S2 j) =
    initvalmulfac1 tau fs (S1 + S2) * X +
      ∑ k ∈ Finset.range (S1 + S2),
        u k * (g (phi0 + (k : ℝ) * mf) * flt1weight tau fs (S1 + S2) k) := by
  have e1 : ∀ k : ℕ, initvalmulfac1 tau fs S2 *
      (u k * (g (phi0 + (k : ℝ) * mf) * flt1weight tau fs S1 k)) =
      u k * (g (phi0 + (k : ℝ) * mf) * flt1weight tau fs (S1 + S2) k) := by
    intro k
    rw [← ivf1_mul_flt1 tau fs S1 S2 k]
    ring
  have e2 : ∀ j : ℕ, u (S1 + j) *
      (g (rmod (phi0 + mf * (S1 : ℝ)) (2 * Real.pi) + (j : ℝ) * mf) *
        flt1weight tau fs S2 j) =
      u (S1 + j) * (g (phi0 + ((S1 + j : ℕ) : ℝ) * mf) *
        flt1weight tau fs (S1 + S2) (S1 + j)) := by
    intro j
    rw [hg, flt1_shift tau fs S1 S2 j]
    have harg : phi0 + mf * (S1 : ℝ) + (j : ℝ) * mf =
        phi0 + ((S1 + j : ℕ) : ℝ) * mf := by
      push_cast
      ring
    rw [harg]
  rw [Finset.sum_range_add, mul_add, Finset.mul_sum,
      Finset.sum_congr rfl fun k _ => e1 k,
      Finset.sum_congr rfl fun j _ => e2 j,
      ← mul_assoc, ivf1_mul_ivf1]
  ring

theorem stage2_add (g : ℝ → ℝ)
    (hg : ∀ a c : ℝ, g (rmod a (2 * Real.pi) + c) = g (a + c))
    (tau fs mf phi0 X1 X2 : ℝ) (u : ℕ → ℝ) (S1 S2 : ℕ) :
    initvalmulfac1 tau fs S2 *
        (initvalmulfac1 tau fs S1 * X2 + initvalmulfac2 tau fs S1 * X1 +
          ∑ k ∈ Finset.range S1,
            u k * (g (phi0 + (k : ℝ) * mf) * flt1weight tau fs S1 k) *
              flt2weightr tau fs S1 k) +
      initvalmulfac2 tau fs S2 *
        (initvalmulfac1 tau fs S1 * X1 +
          ∑ k ∈ Finset.range S1,
            u k * (g (phi0 + (k : ℝ) * mf) * flt1weight tau fs S1 k)) +
      ∑ j ∈ Finset.range S2,
        u (S1 + j) *
          (g (rmod (phi0 + mf * (S1 : ℝ)) (2 * Real.pi) + (j : ℝ) * mf) *
            flt1weight tau fs S2 j) * flt2weightr tau fs S2 j =
    initvalmulfac1 tau fs (S1 + S2) * X2 + initvalmulfac2 tau fs (S1 + S2) * X1 +
      ∑ k ∈ Finset.range (S1 + S2),
        u k * (g (phi0 + (k : ℝ) * mf) * flt1weight tau fs (S1 + S2) k) *
          flt2weightr tau fs (S1 + S2) k := by
  have e1 : ∀ k : ℕ,
      u k * (g (phi0 + (k : ℝ) * mf) * flt1weight tau fs (S1 + S2) k) *
        flt2weightr tau fs (S1 + S2) k =
      initvalmulfac1 tau fs S2 *
          (u k * (g (phi0 + (k : ℝ) * mf) * flt1weight tau fs S1 k) *
            flt2weightr tau fs S1 k) +
        initvalmulfac2 tau fs S2 *
          (u k * (g (phi0 + (k : ℝ) * mf) * flt1weight tau fs S1 k)) := by
    intro k
    linear_combination
      u k * g (phi0 + (k : ℝ) * mf) * (flt2_step tau fs S1 S2 k).symm
  have e2 : ∀ j : ℕ,
      u (S1 + j) * (g (phi0 + ((S1 + j : ℕ) : ℝ) * mf) *
          flt1weight tau fs (S1 + S2) (S1 + j)) *
        flt2weightr tau fs (S1 + S2) (S1 + j) =
      u (S1 + j) *
          (g (rmod (phi0 + mf * (S1 : ℝ)) (2 * Real.pi) + (j : ℝ) * mf) *
            flt1weight tau fs S2 j) * flt2weightr tau fs S2 j := by
    intro j
    rw [hg, ← flt1_shift tau fs S1 S2 j, ← flt2_shift tau fs S1 S2 j]
    have harg : phi0 + mf * (S1 : ℝ) + (j : ℝ) * mf =
        phi0 + ((S1 + j : ℕ) : ℝ) * mf := by
      push_cast
      ring
    rw [harg]
  rw [Finset.sum_range_add,
      Finset.sum_congr rfl fun k _ => e1 k,
      Finset.sum_congr rfl fun j _ => e2 j,
      Finset.sum_add_distrib,
      ← ivf2_add tau fs S1 S2, ← ivf1_mul_ivf1 tau fs S1 S2,
      mul_add, mul_add, mul_add, Finset.mul_sum, Finset.mul_sum]
  ring

/-- Exact batch additivity of the closed-form filter update: one batch
of `S1 + S2` samples and two consecutive batches of `S1` and `S2`
samples produce identical accumulator states and phase. -/
theorem crf_batch_add (tau fs f : ℝ) (st : LockinState) (raw : ℕ → ℕ → ℝ)
    (S1 S2 : ℕ) :
    crf tau fs f (crf tau fs f st raw S1) (fun c j => raw c (S1 + j)) S2 =
      crf tau fs f st raw (S1 + S2) := by
  have h2pi : (2 * Real.pi) ≠ 0 := by positivity
  refine LockinState.ext (funext fun c => ?_) (funext fun c => ?_)
    (funext fun c => ?_) (funext fun c => ?_) ?_
  · exact stage1_add Real.sin sin_rmod_add tau fs (2 * Real.pi * f / fs)
      st.phi (st.x1 c) (raw c) S1 S2
  · exact stage1_add Real.cos cos_rmod_add tau fs (2 * Real.pi * f / fs)
      st.phi (st.y1 c) (raw c) S1 S2
  · exact stage2_add Real.sin sin_rmod_add tau fs (2 * Real.pi * f / fs)
      st.phi (st.x1 c) (st.x2 c) (raw c) S1 S2
  · exact stage2_add Real.cos cos_rmod_add tau fs (2 * Real.pi * f / fs)
      st.phi (st.y1 c) (st.y2 c) (raw c) S1 S2
  · show rmod (rmod (st.phi + 2 * Real.pi * f / fs * (S1 : ℝ)) (2 * Real.pi) +
        2 * Real.pi * f / fs * (S2 : ℝ)) (2 * Real.pi) =
      rmod (st.phi + 2 * Real.pi * f / fs * ((S1 + S2 : ℕ) : ℝ)) (2 * Real.pi)
    rw [rmod_add_rmod _ _ h2pi]
    congr 1
    push_cast
    ring

/-- When `1 < tau * fs` the code's exp/log formulation of the stage-1
weight collapses to the closed form
`(1 - 1/(tau*fs))^(S-1-k) * (1/(tau*fs))`. -/
theorem flt1weight_eq_pow {tau fs : ℝ} (ht : 1 < tau * fs) (S k : ℕ)
    (hk : k < S) :
    flt1weight tau fs S k =
      (1 - 1 / (tau * fs)) ^ (S - 1 - k) * (1 / (tau * fs)) := by
  have h0 : (0 : ℝ) < tau * fs := lt_trans one_pos ht
  have h1 : (0 : ℝ) < 1 - 1 / (tau * fs) := by
    have hlt : 1 / (tau * fs) < 1 := by
      rw [div_lt_one h0]
      exact ht
    linarith
  have hcast : ((S : ℝ) - 1 - (k : ℝ)) = ((S - 1 - k : ℕ) : ℝ) := by
    have e : S - 1 - k = S - (1 + k) := by omega
    rw [e, Nat.cast_sub (by omega : 1 + k ≤ S)]
    push_cast
    ring
  unfold flt1weight mlnalpha mlnialpha
  rw [show -((S : ℝ) - 1 - (k : ℝ)) * -Real.log (1 - 1 / (tau * fs)) -
        Real.log (tau * fs) =
      ((S : ℝ) - 1 - (k : ℝ)) * Real.log (1 - 1 / (tau * fs)) +
        -Real.log (tau * fs) from by ring]
  rw [Real.exp_add, hcast, Real.exp_nat_mul, Real.exp_log h1, Real.exp_neg,
      Real.exp_log h0]
  rw [show (1 : ℝ) / (tau * fs) = (tau * fs)⁻¹ from one_div (tau * fs)]

/-- When `1 < tau * fs` the code's `initvalmulfac1` collapses to the
closed form `(1 - 1/(tau*fs))^S`. -/
theorem ivf1_eq_pow {tau fs : ℝ} (ht : 1 < tau * fs) (S : ℕ) :
    initvalmulfac1 tau fs S = (1 - 1 / (tau * fs)) ^ S := by
  have h0 : (0 : ℝ) < tau * fs := lt_trans one_pos ht
  have h1 : (0 : ℝ) < 1 - 1 / (tau * fs) := by
    have hlt : 1 / (tau * fs) < 1 := by
      rw [div_lt_one h0]
      exact ht
    linarith
  unfold initvalmulfac1 mlnalpha
  rw [show -(-Real.log (1 - 1 / (tau * fs))) * (S : ℝ) =
      (S : ℝ) * Real.log (1 - 1 / (tau * fs)) from by ring]
  rw [Real.exp_nat_mul, Real.exp_log h1]

/-!  ### Claim theorems  -/

/-- C1 (counterexample): the claim's decay factor `exp(-S/(tau*fs))` does
not match the code.  At `tau = 1`, `fs = 2`, `f = 1` (a nonzero signal
frequency, so the source's batch-phase `arange` at line 409 is
well-defined), `S = 1`, zero samples and previous stage-1 state 1, the
code's `continuous_retrieve_and_filter` update (the state map `crf`)
yields `x1 = 1 - 1/(tau*fs) = 1/2`, while the claimed formula yields
`exp(-1/2) ≠ 1/2`. -/
theorem c1_counterexample :
    (crf 1 2 1 st0 (fun _ _ => 0) 1).x1 0 ≠
      Real.exp (-((1 : ℕ) : ℝ) / (1 * 2)) * st0.x1 0 +
        ∑ k ∈ Finset.range 1,
          Real.exp (-(1 : ℝ) / (1 * 2)) ^ (1 - 1 - k) * (1 / (1 * 2)) *
            ((fun (_ _ : ℕ) => (0 : ℝ)) 0 k *
              Real.sin (st0.phi + (k : ℝ) * (2 * Real.pi * 1 / 2))) := by
  have hL : (crf 1 2 1 st0 (fun _ _ => 0) 1).x1 0 = 1 / 2 := by
    simp only [crf, st0]
    rw [Finset.sum_range_one]
    simp only [zero_mul, mul_one, add_zero]
    unfold initvalmulfac1 mlnalpha
    rw [show -(-Real.log (1 - 1 / ((1 : ℝ) * 2))) * ((1 : ℕ) : ℝ) =
        Real.log (1 - 1 / ((1 : ℝ) * 2)) from by push_cast; ring]
    rw [show (1 : ℝ) - 1 / ((1 : ℝ) * 2) = 1 / 2 from by norm_num]
    exact Real.exp_log (by norm_num)
  have hR : Real.exp (-((1 : ℕ) : ℝ) / (1 * 2)) * st0.x1 0 +
      ∑ k ∈ Finset.range 1,
        Real.exp (-(1 : ℝ) / (1 * 2)) ^ (1 - 1 - k) * (1 / (1 * 2)) *
          ((fun (_ _ : ℕ) => (0 : ℝ)) 0 k *
            Real.sin (st0.phi + (k : ℝ) * (2 * Real.pi * 1 / 2))) =
      Real.exp (-(1 / 2)) := by
    rw [Finset.sum_range_one]
    simp only [st0]
    norm_num
  rw [hL, hR]
  have hlt : (1 : ℝ) / 2 < Real.exp (-(1 / 2)) := by
    have h := Real.add_one_lt_exp (show (-(1 / 2) : ℝ) ≠ 0 by norm_num)
    linarith
  exact ne_of_lt hlt

/-- C1 (amended): for a measuring non-simulated instrument and a batch
of `S > 0` samples, the new stage-1 accumulators are the previous ones
attenuated by `(1 - 1/(tau*fs))^S` — the code's per-sample retention is
`1 - alpha` exactly, not `exp(-1/(tau*fs))` — plus the leaky sum over
`k` of `(1 - 1/(tau*fs))^(S-1-k) * alpha * u_k` with
`alpha = 1/(tau*fs)` and `u_k` the sample times the sine (resp. cosine)
of the running oscillator phase at offset `k`. -/
theorem c1_stage1_leaky_sum (inst : Instrument) (raw : ℕ → ℕ → ℝ) (S c : ℕ)
    (hm : inst.measuring = true) (hs : inst.simulated = false)
    (hS : 0 < S) (ht : 1 < inst.tau * inst.fs) :
    continuous_retrieve_and_filter inst raw S =
      .ok { inst with st := crf inst.tau inst.fs inst.f inst.st raw S } ∧
    (crf inst.tau inst.fs inst.f inst.st raw S).x1 c =
      (1 - 1 / (inst.tau * inst.fs)) ^ S * inst.st.x1 c +
        ∑ k ∈ Finset.range S,
          (1 - 1 / (inst.tau * inst.fs)) ^ (S - 1 - k) *
            (1 / (inst.tau * inst.fs)) *
            (raw c k *
              Real.sin (inst.st.phi + (k : ℝ) * (2 * Real.pi * inst.f / inst.fs))) ∧
    (crf inst.tau inst.fs inst.f inst.st raw S).y1 c =
      (1 - 1 / (inst.tau * inst.fs)) ^ S * inst.st.y1 c +
        ∑ k ∈ Finset.range S,
          (1 - 1 / (inst.tau * inst.fs)) ^ (S - 1 - k) *
            (1 / (inst.tau * inst.fs)) *
            (raw c k *
              Real.cos (inst.st.phi + (k : ℝ) * (2 * Real.pi * inst.f / inst.fs))) := by
  refine ⟨by simp [continuous_retrieve_and_filter, hm, hs], ?_, ?_⟩
  · simp only [crf]
    rw [ivf1_eq_pow ht S]
    congr 1
    refine Finset.sum_congr rfl fun k hk => ?_
    rw [flt1weight_eq_pow ht S k (Finset.mem_range.mp hk)]
    ring
  · simp only [crf]
    rw [ivf1_eq_pow ht S]
    congr 1
    refine Finset.sum_congr rfl fun k hk => ?_
    rw [flt1weight_eq_pow ht S k (Finset.mem_range.mp hk)]
    ring

/-- C1 (witness): the amended theorem instantiated at `instC1`
(a measuring hardware instrument with `tau * fs = 2 > 1` and nonzero
signal frequency `f = 1`), an all-zero 1-sample batch and channel 0. -/
theorem c1_witness :
    continuous_retrieve_and_filter instC1 (fun _ _ => 0) 1 =
      .ok { instC1 with st := crf instC1.tau instC1.fs instC1.f instC1.st (fun _ _ => 0) 1 } ∧
    (crf instC1.tau instC1.fs instC1.f instC1.st (fun _ _ => 0) 1).x1 0 =
      (1 - 1 / (instC1.tau * instC1.fs)) ^ 1 * instC1.st.x1 0 +
        ∑ k ∈ Finset.range 1,
          (1 - 1 / (instC1.tau * instC1.fs)) ^ (1 - 1 - k) *
            (1 / (instC1.tau * instC1.fs)) *
            ((fun (_ _ : ℕ) => (0 : ℝ)) 0 k *
              Real.sin (instC1.st.phi +
                (k : ℝ) * (2 * Real.pi * instC1.f / instC1.fs))) ∧
    (crf instC1.tau instC1.fs instC1.f instC1.st (fun _ _ => 0) 1).y1 0 =
      (1 - 1 / (instC1.tau * instC1.fs)) ^ 1 * instC1.st.y1 0 +
        ∑ k ∈ Finset.range 1,
          (1 - 1 / (instC1.tau * instC1.fs)) ^ (1 - 1 - k) *
            (1 / (instC1.tau * instC1.fs)) *
            ((fun (_ _ : ℕ) => (0 : ℝ)) 0 k *
              Real.cos (instC1.st.phi +
                (k : ℝ) * (2 * Real.pi * instC1.f / instC1.fs))) :=
  c1_stage1_leaky_sum instC1 (fun _ _ => 0) 1 0 rfl rfl (by norm_num)
    (by norm_num [instC1])

/-- C2: for a measuring non-simulated instrument, filtering a sample
stream as one batch of `S1 + S2` samples produces exactly (not merely
within tolerance) the same final accumulator state and phase as
filtering it as two consecutive batches of `S1` and then `S2` samples
of the same stream. -/
theorem c2_batch_split_equivalence (inst : Instrument) (raw : ℕ → ℕ → ℝ)
    (S1 S2 : ℕ) (hm : inst.measuring = true) (hs : inst.simulated = false) :
    (continuous_retrieve_and_filter inst raw S1).bind
        (fun i => continuous_retrieve_and_filter i
          (fun c j => raw c (S1 + j)) S2) =
      continuous_retrieve_and_filter inst raw (S1 + S2) := by
  simp [continuous_retrieve_and_filter, hm, hs, crf_batch_add, Except.bind]

/-- C2 (witness): splitting a 2-sample all-zero stream at its midpoint
on the measuring hardware instrument `instW`. -/
theorem c2_witness :
    (continuous_retrieve_and_filter instW (fun _ _ => 0) 1).bind
        (fun i => continuous_retrieve_and_filter i
          (fun c j => (fun (_ _ : ℕ) => (0 : ℝ)) c (1 + j)) 1) =
      continuous_retrieve_and_filter instW (fun _ _ => 0) (1 + 1) :=
  c2_batch_split_equivalence instW (fun _ _ => 0) 1 1 rfl rfl

/-- C3: after `continuous_retrieve_and_filter` on a batch of `S` samples
on a measuring non-simulated instrument, the oscillator phase equals the
old phase advanced by `S * 2π * f / fs` reduced modulo `2π`, and lies in
`[0, 2π)`; `free_data`, the only other operation writing the phase, sets
it to 0. -/
theorem c3_phase_advance_and_range (inst : Instrument) (raw : ℕ → ℕ → ℝ)
    (S : ℕ) (hm : inst.measuring = true) (hs : inst.simulated = false) :
    continuous_retrieve_and_filter inst raw S =
      .ok { inst with st := crf inst.tau inst.fs inst.f inst.st raw S } ∧
    (crf inst.tau inst.fs inst.f inst.st raw S).phi =
      rmod (inst.st.phi + (S : ℝ) * (2 * Real.pi) * inst.f / inst.fs)
        (2 * Real.pi) ∧
    0 ≤ (crf inst.tau inst.fs inst.f inst.st raw S).phi ∧
    (crf inst.tau inst.fs inst.f inst.st raw S).phi < 2 * Real.pi ∧
    (free_data inst).st.phi = 0 := by
  have h2pi : (0 : ℝ) < 2 * Real.pi := by positivity
  refine ⟨by simp [continuous_retrieve_and_filter, hm, hs], ?_, ?_, ?_, rfl⟩
  · show rmod (inst.st.phi + 2 * Real.pi * inst.f / inst.fs * (S : ℝ))
        (2 * Real.pi) = _
    congr 1
    ring
  · exact rmod_nonneg _ h2pi
  · exact rmod_lt _ h2pi

/-- C3 (witness): the theorem instantiated at the measuring hardware
instrument `instW` and a one-sample all-zero batch. -/
theorem c3_witness :
    continuous_retrieve_and_filter instW (fun _ _ => 0) 1 =
      .ok { instW with st := crf instW.tau instW.fs instW.f instW.st (fun _ _ => 0) 1 } ∧
    (crf instW.tau instW.fs instW.f instW.st (fun _ _ => 0) 1).phi =
      rmod (instW.st.phi + ((1 : ℕ) : ℝ) * (2 * Real.pi) * instW.f / instW.fs)
        (2 * Real.pi) ∧
    0 ≤ (crf instW.tau instW.fs instW.f instW.st (fun _ _ => 0) 1).phi ∧
    (crf instW.tau instW.fs instW.f instW.st (fun _ _ => 0) 1).phi <
      2 * Real.pi ∧
    (free_data instW).st.phi = 0 :=
  c3_phase_advance_and_range instW (fun _ _ => 0) 1 rfl rfl

/-- C4 (counterexample): with 1 measurement channel (`C = 2`) and all
raw amplitudes equal to 1, `continuous_get_r_phi` returns 2 at index 2
(the stage-2 reference amplitude — so a stage-2 value *is* scaled by 2,
where its unscaled value would be 1) and returns 1 at index 1 (a
stage-1 normalized channel amplitude — so it is *not* multiplied by 2,
which would give 2). -/
theorem c4_counterexample :
    (continuous_get_r_phi stC4 2).1 2 ≠
      Real.sqrt (stC4.x2 0 ^ 2 + stC4.y2 0 ^ 2) ∧
    (continuous_get_r_phi stC4 2).1 1 ≠
      2 * (Real.sqrt (stC4.x1 1 ^ 2 + stC4.y1 1 ^ 2) /
        Real.sqrt (stC4.x1 0 ^ 2 + stC4.y1 0 ^ 2)) := by
  have h1 : Real.sqrt ((1 : ℝ) ^ 2 + (0 : ℝ) ^ 2) = 1 := by
    rw [show (1 : ℝ) ^ 2 + (0 : ℝ) ^ 2 = 1 from by norm_num, Real.sqrt_one]
  constructor
  · simp only [continuous_get_r_phi, stC4]
    norm_num [h1]
  · simp only [continuous_get_r_phi, stC4]
    norm_num [h1]

/-- C4 (amended): `continuous_get_r_phi` multiplies by 2 exactly the two
*reference* amplitudes — index 0 (stage 1) and index `C` (stage 2) —
while the normalized channel amplitudes of *both* stages
(indices `1..C-1` and `C+1..2C-1`) are left unscaled. -/
theorem c4_scale_on_reference_amplitudes (st : LockinState) (C i j : ℕ)
    (hC : 1 ≤ C) (hi1 : 1 ≤ i) (hiC : i < C) (hjC : C < j) (hj2 : j < 2 * C) :
    (continuous_get_r_phi st C).1 0 =
      2 * Real.sqrt (st.x1 0 ^ 2 + st.y1 0 ^ 2) ∧
    (continuous_get_r_phi st C).1 C =
      2 * Real.sqrt (st.x2 0 ^ 2 + st.y2 0 ^ 2) ∧
    (continuous_get_r_phi st C).1 i =
      Real.sqrt (st.x1 i ^ 2 + st.y1 i ^ 2) /
        Real.sqrt (st.x1 0 ^ 2 + st.y1 0 ^ 2) ∧
    (continuous_get_r_phi st C).1 j =
      Real.sqrt (st.x2 (j - C) ^ 2 + st.y2 (j - C) ^ 2) /
        Real.sqrt (st.x2 0 ^ 2 + st.y2 0 ^ 2) := by
  have hC0 : 0 < C := hC
  have hcc : ¬(C + 1 ≤ C) := by omega
  have hi0 : i ≠ 0 := by omega
  have hine : i ≠ C := by omega
  have hinot : ¬(C + 1 ≤ i) := by omega
  have hj0 : j ≠ 0 := by omega
  have hjne : j ≠ C := by omega
  have hjge : C + 1 ≤ j := by omega
  have hjnlt : ¬(j < C) := by omega
  refine ⟨?_, ?_, ?_, ?_⟩
  · simp [continuous_get_r_phi, hC0, hcc]
  · simp [continuous_get_r_phi, hC0, hcc]
  · simp [continuous_get_r_phi, hC0, hcc, hi0, hine, hinot, hi1, hiC]
  · simp [continuous_get_r_phi, hC0, hcc, hj0, hjne, hjge, hjnlt]

/-- C4 (witness): the amended theorem at `stC4`, `C = 2`, channel
indices `i = 1` (stage 1) and `j = 3` (stage 2). -/
theorem c4_witness :
    (continuous_get_r_phi stC4 2).1 0 =
      2 * Real.sqrt (stC4.x1 0 ^ 2 + stC4.y1 0 ^ 2) ∧
    (continuous_get_r_phi stC4 2).1 2 =
      2 * Real.sqrt (stC4.x2 0 ^ 2 + stC4.y2 0 ^ 2) ∧
    (continuous_get_r_phi stC4 2).1 1 =
      Real.sqrt (stC4.x1 1 ^ 2 + stC4.y1 1 ^ 2) /
        Real.sqrt (stC4.x1 0 ^ 2 + stC4.y1 0 ^ 2) ∧
    (continuous_get_r_phi stC4 2).1 3 =
      Real.sqrt (stC4.x2 (3 - 2) ^ 2 + stC4.y2 (3 - 2) ^ 2) /
        Real.sqrt (stC4.x2 0 ^ 2 + stC4.y2 0 ^ 2) :=
  c4_scale_on_reference_amplitudes stC4 2 1 3 (by norm_num) (by norm_num)
    (by norm_num) (by norm_num) (by norm_num)

/-- Writing into a result log that still has room (`num + length ≤ CAP`)
just advances the cursor by the number of writes. -/
theorem writeAll_num (vs : List ℝ) : ∀ l : ResultLog,
    l.num + vs.length ≤ R_PHI_BUFFER_LEN_MAX →
    (writeAll l vs).num = l.num + vs.length := by
  induction vs with
  | nil =>
    intro l _
    simp [writeAll]
  | cons v vs ih =>
    intro l h
    have hlen : l.num + (vs.length + 1) ≤ R_PHI_BUFFER_LEN_MAX := by
      simpa using h
    have hne : l.num ≠ R_PHI_BUFFER_LEN_MAX := by omega
    have hw : resultWrite l v = ⟨Function.update l.buf l.num v, l.num + 1⟩ := by
      simp [resultWrite, writeIndex, hne]
    show (writeAll (resultWrite l v) vs).num = _
    rw [hw, ih ⟨Function.update l.buf l.num v, l.num + 1⟩ (by simpa using by omega)]
    simp
    omega

/-- C5: a result write whose cursor has reached
`CAP = R_PHI_BUFFER_LEN_MAX` first discards the whole log (cursor reset
to 0) and then writes; hence `CAP + 1` writes into an initially empty
log leave exactly 1 entry, namely the overflow-triggering value; and
starting from any cursor `≤ CAP`, the write index stays `< CAP` (no
out-of-bounds write) and the new cursor stays `≤ CAP`. -/
theorem c5_overflow_policy (vs : List ℝ) (v : ℝ) (b : ℕ → ℝ)
    (hlen : vs.length = R_PHI_BUFFER_LEN_MAX) :
    (writeAll ⟨b, 0⟩ (vs ++ [v])).num = 1 ∧
    (writeAll ⟨b, 0⟩ (vs ++ [v])).buf 0 = v ∧
    (∀ l : ResultLog, l.num ≤ R_PHI_BUFFER_LEN_MAX →
      writeIndex l < R_PHI_BUFFER_LEN_MAX ∧
      (resultWrite l v).num ≤ R_PHI_BUFFER_LEN_MAX) := by
  have hfull : (writeAll ⟨b, 0⟩ vs).num = R_PHI_BUFFER_LEN_MAX := by
    have h := writeAll_num vs ⟨b, 0⟩ (by simp [hlen])
    simpa [hlen] using h
  have happ : writeAll ⟨b, 0⟩ (vs ++ [v]) =
      resultWrite (writeAll ⟨b, 0⟩ vs) v := by
    simp [writeAll]
  refine ⟨?_, ?_, ?_⟩
  · rw [happ]
    simp [resultWrite, writeIndex, hfull]
  · rw [happ]
    simp [resultWrite, writeIndex, hfull]
  · intro l hl
    constructor
    · unfold writeIndex
      split
      · norm_num [R_PHI_BUFFER_LEN_MAX]
      · omega
    · show writeIndex l + 1 ≤ R_PHI_BUFFER_LEN_MAX
      unfold writeIndex
      split
      · norm_num [R_PHI_BUFFER_LEN_MAX]
      · omega

/-- C5 (witness): `CAP` zero writes followed by the value 37. -/
theorem c5_witness :
    (writeAll ⟨fun _ => 0, 0⟩
        (List.replicate R_PHI_BUFFER_LEN_MAX 0 ++ [37])).num = 1 ∧
    (writeAll ⟨fun _ => 0, 0⟩
        (List.replicate R_PHI_BUFFER_LEN_MAX 0 ++ [37])).buf 0 = 37 ∧
    (∀ l : ResultLog, l.num ≤ R_PHI_BUFFER_LEN_MAX →
      writeIndex l < R_PHI_BUFFER_LEN_MAX ∧
      (resultWrite l 37).num ≤ R_PHI_BUFFER_LEN_MAX) :=
  c5_overflow_policy (List.replicate R_PHI_BUFFER_LEN_MAX 0) 37 (fun _ => 0)
    (by simp)

/-- C6 (counterexample): `GET RPHI` is a result variable, yet on a
selected instrument with completely empty result buffers the dispatcher
*does* send a reply (it reads the continuous accumulators directly,
bypassing the buffers), contradicting the claim that every listed result
variable yields no reply when the buffer is empty. -/
theorem c6_counterexample :
    freshSlot.amplitude_num = 0 ∧ freshSlot.phase_num = 0 ∧
    commandGet 1 [freshSlot] .rphi ≠ none := by
  refine ⟨rfl, rfl, ?_⟩
  simp [commandGet, get, _get_lockin]

/-- C6 (amended): for the buffered result variables — RPHIBUFFER, R,
PHI, XY, X, Y, i.e. all of the claim's list except RPHI — a `GET` on a
selected instrument whose result buffers are empty returns Python `None`
and the dispatcher sends no reply line (in particular no `ERROR`), so
the session can retry on a later tick; `GET RPHI` instead always
replies, computed from the live accumulators. -/
theorem c6_empty_buffer_no_reply (idx : ℤ) (slots : List Slot) (sl : Slot)
    (v : GetVar) (hget : _get_lockin idx slots = .ok sl)
    (ha : sl.amplitude_num = 0) (hp : sl.phase_num = 0)
    (hv : v = .rphibuffer ∨ v = .r ∨ v = .phi ∨ v = .xy ∨ v = .x ∨ v = .y) :
    get idx slots v = .ok (none, sl) ∧ commandGet idx slots v = none := by
  have hg : get idx slots v = .ok (none, sl) := by
    rcases hv with h | h | h | h | h | h <;> subst h <;>
      simp [get, hget, ha, hp]
  exact ⟨hg, by simp [commandGet, hg]⟩

/-- C6 (witness): `GET R` on a freshly started slot with empty buffers. -/
theorem c6_witness :
    get 1 [freshSlot] .r = .ok (none, freshSlot) ∧
    commandGet 1 [freshSlot] .r = none :=
  c6_empty_buffer_no_reply 1 [freshSlot] freshSlot .r
    (by simp [_get_lockin]) rfl rfl (Or.inr (Or.inl rfl))

/-- C7 (counterexample): starting a non-measuring instrument whose
accumulators and phase are all 1 leaves them at 1: `START` does *not*
reset the accumulators `x1..y2` or the phase to zero as claimed. -/
theorem c7_counterexample :
    (start_lockin (baseSlot instC7) 0).map (fun s => s.inst.st.x1 0) =
      .ok 1 ∧
    (start_lockin (baseSlot instC7) 0).map (fun s => s.inst.st.phi) =
      .ok 1 ∧
    (1 : ℝ) ≠ 0 := by
  refine ⟨?_, ?_, one_ne_zero⟩ <;> rfl

/-- C7 (amended): for a non-measuring instrument, `start_lockin` sets
the measuring flag and resets the batch counter of the current
integration cycle to zero, but leaves the accumulators `x1, y1, x2, y2`
and the oscillator phase unchanged (they are zeroed at instrument
creation by `free_data`, not by `start`). -/
theorem c7_start_preserves_accumulators (sl : Slot) (now : ℝ)
    (hm : sl.inst.measuring = false) :
    (start_lockin sl now).map (fun s => s.inst.measuring) = .ok true ∧
    (start_lockin sl now).map (fun s => s.meas_in_cur_int) = .ok 0 ∧
    (start_lockin sl now).map (fun s => s.inst.st) = .ok sl.inst.st := by
  refine ⟨?_, ?_, ?_⟩ <;> simp [start_lockin, start_measurement, hm, Except.map]

/-- C7 (witness): the amended theorem at the idle slot around `instC7`. -/
theorem c7_witness :
    (start_lockin (baseSlot instC7) 0).map (fun s => s.inst.measuring) =
      .ok true ∧
    (start_lockin (baseSlot instC7) 0).map (fun s => s.meas_in_cur_int) =
      .ok 0 ∧
    (start_lockin (baseSlot instC7) 0).map (fun s => s.inst.st) =
      .ok (baseSlot instC7).inst.st :=
  c7_start_preserves_accumulators (baseSlot instC7) 0 rfl

/-- C8 (counterexample): a scheduler tick over two measuring instruments
where the first one's retrieve-and-filter raises (a measuring simulated
instrument) aborts with that exception: the second measuring instrument
is not processed, and — the tick being called outside the main loop's
`try` block — the exception escapes the polling loop. -/
theorem c8_counterexample :
    measure_loop_continuous [(simInstC8, batch0), (hwInstC8, batch0)] =
      .error .simulationUnsupported := by
  rfl

/-- C8 (amended): when an instrument's `continuous_retrieve_and_filter`
raises during the tick, the `for` loop of `measure_loop_continuous`
aborts: instruments after the failing one are not processed in that
iteration and the exception propagates (terminating the polling loop,
whose `try` only guards command reading). -/
theorem c8_tick_aborts_on_failure (pre post : List (Instrument × RawBatch))
    (bad : Instrument × RawBatch)
    (hpre : ∀ p ∈ pre, p.1.measuring = false)
    (hm : bad.1.measuring = true) (hsim : bad.1.simulated = true) :
    measure_loop_continuous (pre ++ bad :: post) =
      .error .simulationUnsupported := by
  induction pre with
  | nil =>
    obtain ⟨bi, bb⟩ := bad
    simp only [List.nil_append]
    simp [measure_loop_continuous, continuous_retrieve_and_filter,
      hm, hsim] at hm hsim ⊢
    simp [measure_loop_continuous, continuous_retrieve_and_filter, hm, hsim]
  | cons p ps ih =>
    obtain ⟨pi, pb⟩ := p
    have hp : pi.measuring = false := hpre (pi, pb) (List.mem_cons_self _ _)
    have hps : ∀ q ∈ ps, q.1.measuring = false := fun q hq =>
      hpre q (List.mem_cons_of_mem _ hq)
    simp only [List.cons_append]
    simp [measure_loop_continuous, hp, ih hps, Except.map]

/-- C8 (witness): the amended theorem with no preceding instruments and
one healthy measuring instrument after the failing one. -/
theorem c8_witness :
    measure_loop_continuous
        ([] ++ (simInstC8, batch0) :: [(hwInstC8, batch0)]) =
      .error .simulationUnsupported :=
  c8_tick_aborts_on_failure [] [(hwInstC8, batch0)] (simInstC8, batch0)
    (by simp) rfl rfl

/-- C9: on a selected slot with a buffered phase row (written by
`measure_loop` as measured phase minus the current offset), `phasenull`
on channel `ch` raises the phase offset by that buffered value — making
the new offset equal to the last measured (uncorrected) phase of
channel `ch` — so that, with the measurement unchanged, the next
reported phase of channel `ch` is 0 and every channel's reported phase
shifts by minus channel `ch`'s pre-null reported phase. -/
theorem c9_phasenull (sel : ℤ) (slots : List Slot) (sl : Slot) (ch : ℕ)
    (meas : ℕ → ℝ) (hsel : 0 < sel)
    (hfind : slots[(sel - 1).toNat]? = some sl) (hpn : sl.phase_num ≠ 0)
    (hrow : ∀ c, sl.phase_buffer (sl.phase_num - 1) c =
      meas c - sl.phase_offset) :
    phasenull sel slots ch =
      .ok (slots.set (sel - 1).toNat
        { sl with phase_offset :=
            sl.phase_offset + sl.phase_buffer (sl.phase_num - 1) ch }) ∧
    sl.phase_offset + sl.phase_buffer (sl.phase_num - 1) ch = meas ch ∧
    reported { sl with phase_offset :=
        sl.phase_offset + sl.phase_buffer (sl.phase_num - 1) ch } meas ch =
      0 ∧
    ∀ c, reported { sl with phase_offset :=
        sl.phase_offset + sl.phase_buffer (sl.phase_num - 1) ch } meas c =
      reported sl meas c - reported sl meas ch := by
  have hz : sel ≠ 0 := by omega
  have hfind2 : slots[sel.toNat - 1]? = some sl := by
    rwa [Int.pred_toNat] at hfind
  refine ⟨by simp [phasenull, hz, hfind2, hpn], ?_, ?_, ?_⟩
  · rw [hrow ch]
    ring
  · unfold reported
    simp only []
    rw [hrow ch]
    ring
  · intro c
    unfold reported
    simp only []
    rw [hrow ch]
    ring

/-- C9 (witness): nulling channel 2 on `slotC9`, whose buffered row was
produced from measured phases `meas c = c` with offset 0. -/
theorem c9_witness :
    phasenull 1 [slotC9] 2 =
      .ok ([slotC9].set ((1 : ℤ) - 1).toNat
        { slotC9 with phase_offset := slotC9.phase_offset + slotC9.phase_buffer (slotC9.phase_num - 1) 2 }) ∧
    slotC9.phase_offset + slotC9.phase_buffer (slotC9.phase_num - 1) 2 =
      (fun c : ℕ => (c : ℝ)) 2 ∧
    reported { slotC9 with phase_offset := slotC9.phase_offset + slotC9.phase_buffer (slotC9.phase_num - 1) 2 }
      (fun c : ℕ => (c : ℝ)) 2 = 0 ∧
    ∀ c, reported { slotC9 with phase_offset := slotC9.phase_offset + slotC9.phase_buffer (slotC9.phase_num - 1) 2 }
      (fun c : ℕ => (c : ℝ)) c =
      reported slotC9 (fun c : ℕ => (c : ℝ)) c -
        reported slotC9 (fun c : ℕ => (c : ℝ)) 2 :=
  c9_phasenull 1 [slotC9] slotC9 2 (fun c : ℕ => (c : ℝ)) (by norm_num)
    rfl (by decide) (fun c => by simp [slotC9, baseSlot])

/-- C10: `SELECT n` accepts *every* integer `n ≤ len(dl)` — including
`n = 0` and negative `n` — storing it as the selection and replying
`OK`; when `n ≤ 0` the selection designates no instrument, so a
subsequent `GET` or `SET` raises `No lock-in selected` (answered with
`ERROR`). -/
theorem c10_select_accepts_nonpositive (s : ℤ) (count : ℕ)
    (canCreate : Bool) (slots : List Slot) (v : GetVar) (sv : SetVar)
    (val : ℝ) (hs : s ≤ (count : ℤ)) :
    select_lockin s count canCreate = .ok (s, count) ∧
    commandSelect s count canCreate = .ok ∧
    (s ≤ 0 → get s slots v = .error .noLockinSelected ∧
      setCmd s slots sv val = .error .noLockinSelected) := by
  have h1 : select_lockin s count canCreate = .ok (s, count) := by
    simp [select_lockin, hs]
  refine ⟨h1, by simp [commandSelect, h1], fun hs0 => ?_⟩
  have hno : ¬(0 < s ∧ s ≤ (slots.length : ℤ)) := fun h => absurd h.1 (by omega)
  have hg : _get_lockin s slots = .error .noLockinSelected := by
    simp [_get_lockin, hno]
  exact ⟨by simp [get, hg], by simp [setCmd, hg]⟩

/-- C10 (witness): `SELECT 0` with no instruments, then `GET R` and
`SET F`. -/
theorem c10_witness :
    select_lockin 0 0 false = .ok (0, 0) ∧
    commandSelect 0 0 false = .ok ∧
    get 0 [] .r = .error .noLockinSelected ∧
    setCmd 0 [] .f 0 = .error .noLockinSelected :=
  have h := c10_select_accepts_nonpositive 0 0 false [] .r .f 0 (by decide)
  ⟨h.1, h.2.1, (h.2.2 (by decide)).1, (h.2.2 (by decide)).2⟩

end DigitalLockin
